import Mathlib

/-!
Verification of the Refactoring Swarm repository: a shallow embedding of the
sandboxed tool layer (`src/tools/sandbox.py`, `src/tools/file_ops.py`,
`src/tools/tester.py`) and of the repair-loop state machine
(`src/agents.py`, `src/graph.py`), together with proofs of the spec's
testable properties.

Modelling conventions:
- POSIX paths are modelled as an `absolute` flag plus the list of non-empty,
  non-`.` components, exactly the information `pathlib.PurePosixPath` keeps
  after parsing a string.
- The filesystem is modelled as an association list from resolved component
  lists to file contents (a flat map of files; directories are implicit and
  there are no symlinks, so `Path.resolve()` is lexical normalization).
- Text contents are Lean `String`s; encoding a string as UTF-8 and decoding
  it back is the identity, so the utf-8 read/write pair is modelled as
  storing the string itself.
- External effects (the language-model call, the pylint/pytest subprocesses,
  the OS-level success of `shutil.copy2`) are passed in as explicit
  parameters, so every theorem quantifies over all of their outcomes.
-/

set_option autoImplicit false

namespace RefactoringSwarm

/-! ## Path model (`src/tools/sandbox.py`) -/

/-- A parsed POSIX path: whether it is absolute, and its components with
empty and `.` segments dropped, as `pathlib.PurePosixPath` parses a string.
`..` components are kept, as pathlib keeps them. -/
structure PPath where
  absolute : Bool
  parts : List String
  deriving Repr, DecidableEq

/-- Split a character list at every slash (the slash-separated segments of
a path string, including empty segments). -/
def splitSlash : List Char → List (List Char)
  | [] => [[]]
  | c :: rest =>
    match splitSlash rest with
    | [] => [[]]
    | grp :: grps =>
      if c = '/' then [] :: grp :: grps
      else (c :: grp) :: grps

/-- Parse a path string the way `pathlib.PurePosixPath` does: absolute iff
it starts with a slash; components are the slash-separated segments with
empty segments and `.` dropped. -/
def parsePath (s : String) : PPath :=
  { absolute := match s.data with
      | [] => false
      | c :: _ => c == '/',
    parts := ((splitSlash s.data).map (fun g => String.mk g)).filter
      (fun t => t != "" && t != ".") }

/-- Lexical resolution of an absolute component list, as `Path.resolve()`
behaves on a symlink-free filesystem: `..` pops the last component (and is a
no-op at the root), every other component is appended. -/
def resolveParts (ps : List String) : List String :=
  ps.foldl (fun acc c => if c = ".." then acc.dropLast else acc ++ [c]) []

/-- Containment test used by `resolved_path.relative_to(self._sandbox_root)`:
`relative_to` succeeds exactly when the root's components are a prefix of the
resolved path's components. -/
def isWithin : List String → List String → Bool
  | [], _ => true
  | _ :: _, [] => false
  | r :: rs, p :: ps => r == p && isWithin rs ps

/-- Errors raised by `SandboxManager.validate_path`: `ValueError` for an
empty argument, `SecurityError` for a path outside the sandbox. -/
inductive PathError where
  | invalidArgument
  | securityViolation
  deriving Repr, DecidableEq

/-- Core of `SandboxManager.validate_path` acting on an already-constructed
`Path` object (a `Path` is always truthy in Python, so the emptiness check
does not apply on this entry): a relative path is joined under the sandbox
root, the result is resolved, and the resolved path is accepted exactly when
the root's components are a prefix of it. `root` is the component list of
the resolved absolute sandbox root. -/
def validate_pathP (root : List String) (p : PPath) : Except PathError PPath :=
  let joined := if p.absolute then p.parts else root ++ p.parts
  let resolved := resolveParts joined
  if isWithin root resolved then .ok ⟨true, resolved⟩
  else .error .securityViolation

/-- The string entry point of `SandboxManager.validate_path`: an empty
string is falsy in Python, so `if not path` raises `ValueError`; otherwise
the string is parsed into a `Path` and validated. -/
def validate_path (root : List String) (input : String) : Except PathError PPath :=
  if input = "" then .error .invalidArgument
  else validate_pathP root (parsePath input)

/-- Model of `SandboxManager.get_safe_path`: `self._sandbox_root /
relative_path` followed by `validate_path` on the joined `Path`. With
pathlib join semantics an absolute right operand replaces the root, a
relative one is appended under it. -/
def get_safe_path (root : List String) (rel : String) : Except PathError PPath :=
  let p := parsePath rel
  let full : PPath := if p.absolute then p else ⟨true, root ++ p.parts⟩
  validate_pathP root full

/-- Modelled from the spec: the spec's `joinSafe` is described as forcing
interpretation of its argument as root-relative before validating, i.e. the
argument's components are always appended under the sandbox root, even for
an absolute argument. This definition follows the spec's words and is
compared against `get_safe_path`, which embeds the source. -/
def get_safe_path_specModel (root : List String) (rel : String) : Except PathError PPath :=
  let p := parsePath rel
  validate_pathP root ⟨true, root ++ p.parts⟩

/-- The joined and resolved path that `validate_path` computes for an input
string: a relative input is first put under the sandbox root, an absolute
one is taken as is, and the result is resolved. -/
def resolvedJoin (root : List String) (input : String) : List String :=
  resolveParts (if (parsePath input).absolute then (parsePath input).parts
                else root ++ (parsePath input).parts)

/-! ## Filesystem model and file operations (`src/tools/file_ops.py`) -/

/-- The filesystem: a flat association list from resolved component lists to
file contents. -/
abbrev FS := List (List String × String)

/-- Look up the content of a file. -/
def fsLookup : FS → List String → Option String
  | [], _ => none
  | kv :: rest, k => if k = kv.1 then some kv.2 else fsLookup rest k

/-- Remove every binding of a path. -/
def fsErase : FS → List String → FS
  | [], _ => []
  | kv :: rest, k => if kv.1 = k then fsErase rest k else kv :: fsErase rest k

/-- Write a file: the path is bound to the new content, shadowing nothing
(stale bindings are erased first). -/
def fsInsert (fs : FS) (k : List String) (v : String) : FS :=
  (k, v) :: fsErase fs k

/-- Append a string to the last component of a path. This is what
`safe_path.with_suffix(safe_path.suffix + extra)` computes for a file name:
the final suffix is replaced by itself followed by `extra`, so the name as a
whole gains `extra` at its end. -/
def withLastAppend (parts : List String) (extra : String) : List String :=
  parts.dropLast ++ [parts.getLastD "" ++ extra]

/-- The temporary path used by the atomic write:
`safe_path.with_suffix(safe_path.suffix + ".tmp")`. -/
def tmpPathOf (parts : List String) : List String :=
  withLastAppend parts ".tmp"

/-- The backup path `safe_path.with_suffix(f"{suffix}.bak.{timestamp}")`. -/
def backupPathOf (parts : List String) (ts : String) : List String :=
  withLastAppend parts (".bak." ++ ts)

/-- Model of `FileOperationResult`: the `metadata` dict is flattened to the
fields the verified properties inspect (`backup_created`, `backup_path`);
size, encoding, line count and timestamps are dropped. -/
structure FileOperationResult where
  success : Bool
  content : Option String := none
  filepath : Option (List String) := none
  error : Option String := none
  backup_created : Bool := false
  backup_path : Option (List String) := none
  deriving Repr, DecidableEq

/-- Model of `FileOperations.read_file`: validate the path (a `ValueError`
from the empty-path check and a `SecurityError` are both caught and turned
into a failed result), fail if the file is absent, otherwise return its
content. Reading back text stored under the same encoding is the identity,
so the utf-8/latin-1 decode logic collapses to returning the stored
string. -/
def read_file (fs : FS) (root : List String) (input : String) : FileOperationResult :=
  match validate_path root input with
  | .error .invalidArgument => { success := false, error := some "Unexpected error: ValueError" }
  | .error .securityViolation => { success := false, error := some "Security violation" }
  | .ok p =>
    match fsLookup fs p.parts with
    | none => { success := false, filepath := some p.parts, error := some "File not found" }
    | some c => { success := true, filepath := some p.parts, content := some c }

/-- Core of `FileOperations.create_backup` acting on a validated path.
`copyOk` models whether the OS-level `shutil.copy2` call succeeds; when it
raises, the blanket `except` returns a failed result and the filesystem is
unchanged. -/
def create_backup_at (fs : FS) (parts : List String) (ts : String) (copyOk : Bool) :
    FileOperationResult × FS :=
  match fsLookup fs parts with
  | none =>
    ({ success := false, filepath := some parts,
       error := some "Cannot backup: file does not exist" }, fs)
  | some c =>
    if copyOk then
      let bp := backupPathOf parts ts
      ({ success := true, filepath := some parts, backup_path := some bp },
       fsInsert fs bp c)
    else
      ({ success := false, filepath := some parts, error := some "Backup failed" }, fs)

/-- Model of `FileOperations.create_backup`: validate (any error from
validation is caught by the blanket `except` and reported as a failure),
then back the file up next to itself under a timestamped name. -/
def create_backup (fs : FS) (root : List String) (input : String) (ts : String)
    (copyOk : Bool) : FileOperationResult × FS :=
  match validate_path root input with
  | .error _ => ({ success := false, error := some "Backup failed" }, fs)
  | .ok p => create_backup_at fs p.parts ts copyOk

/-- Model of `FileOperations.write_file`: validate, optionally back up an
existing file (a failed backup leaves `backup_path` unset and does not stop
the write), write the content to `<path>.tmp`, then atomically rename the
temporary file onto the target. -/
def write_file (fs : FS) (root : List String) (input : String) (content : String)
    (createBackupFlag : Bool) (ts : String) (copyOk : Bool) :
    FileOperationResult × FS :=
  match validate_path root input with
  | .error .invalidArgument => ({ success := false, error := some "Write failed: ValueError" }, fs)
  | .error .securityViolation => ({ success := false, error := some "Security violation" }, fs)
  | .ok p =>
    let parts := p.parts
    let backupStep : Option (List String) × FS :=
      if createBackupFlag && (fsLookup fs parts).isSome then
        let br := create_backup_at fs parts ts copyOk
        (if br.1.success then br.1.backup_path else none, br.2)
      else (none, fs)
    let fs1 := backupStep.2
    let tmp := tmpPathOf parts
    let fs2 := fsInsert fs1 tmp content
    let fs3 := fsInsert (fsErase fs2 tmp) parts content
    ({ success := true, filepath := some parts,
       backup_created := backupStep.1.isSome, backup_path := backupStep.1 }, fs3)

/-! ## Test runner (`src/tools/tester.py`) -/

/-- Test statistics kept by `PytestRunner._parse_output` in its `stats`
dict, with the same five keys. -/
structure Stats where
  total : Nat
  passed : Nat
  failed : Nat
  skipped : Nat
  errors : Nat
  deriving Repr, DecidableEq

/-- One pass of the loop over `re.findall(r"(\d+)\s+(passed|failed|skipped|error)", ...)`
matches: the status is lower-cased and the corresponding counter is set. -/
def applySummaryMatch (s : Stats) (m : Nat × String) : Stats :=
  let status := m.2.toLower
  if status = "passed" then { s with passed := m.1 }
  else if status = "failed" then { s with failed := m.1 }
  else if status = "skipped" then { s with skipped := m.1 }
  else if status = "error" then { s with errors := m.1 }
  else s

/-- One pass of the fallback loop: `if status in stats: stats[status] = count`,
where the dict keys are `total`, `passed`, `failed`, `skipped`, `errors`
(note: the token `error` does not match the key `errors` here, and `total`
is itself a key that can be set and is then overwritten by the sum). -/
def applyAltMatch (s : Stats) (m : Nat × String) : Stats :=
  if m.2 = "total" then { s with total := m.1 }
  else if m.2 = "passed" then { s with passed := m.1 }
  else if m.2 = "failed" then { s with failed := m.1 }
  else if m.2 = "skipped" then { s with skipped := m.1 }
  else if m.2 = "errors" then { s with errors := m.1 }
  else s

/-- Model of `PytestRunner._parse_output` restricted to the statistics it
returns. The regex engine is not re-implemented: `ms` stands for the
result of the primary `re.findall` over the raw output (count/status
pairs), and `altMatches` for the fallback `re.findall` over the summary
text when the alternative `re.search` matched (`none` when it did not).
After the primary loop `total` is computed as the sum of the four counters;
if that total is zero the fallback matches are applied and `total` is again
recomputed as the sum. -/
def parse_output_stats (ms : List (Nat × String))
    (altMatches : Option (List (Nat × String))) : Stats :=
  let s0 : Stats := ⟨0, 0, 0, 0, 0⟩
  let s1 := ms.foldl applySummaryMatch s0
  let s1 := { s1 with total := s1.passed + s1.failed + s1.skipped + s1.errors }
  if s1.total = 0 then
    match altMatches with
    | none => s1
    | some ams =>
      let s2 := ams.foldl applyAltMatch s1
      { s2 with total := s2.passed + s2.failed + s2.skipped + s2.errors }
  else s1

/-- Model of `TestResult`, restricted to the fields the verified properties
inspect; the per-test failure details and metadata are dropped. -/
structure TestResult where
  success : Bool
  all_tests_passed : Bool
  stats : Stats
  deriving Repr, DecidableEq

/-- The successful-execution path of `PytestRunner.run_tests` after the
subprocess returned output: parse the stats and compute
`all_passed = stats.get("failed", 0) == 0 and stats.get("errors", 0) == 0`. -/
def run_tests_result (ms : List (Nat × String))
    (altMatches : Option (List (Nat × String))) : TestResult :=
  let stats := parse_output_stats ms altMatches
  { success := true,
    all_tests_passed := stats.failed == 0 && stats.errors == 0,
    stats := stats }

/-! ## Agents and repair loop (`src/agents.py`, `src/graph.py`) -/

/-- The `test_passed` flag the judge embeds in its `result` dict (the
Python code stores `str(result)` in `test_report`; the model keeps the flag
structurally so it can be inspected). -/
structure JudgeReport where
  test_passed : Bool
  deriving Repr, DecidableEq

/-- Model of `SwarmState` (`src/state.py`), with `test_report` kept
structured rather than stringified. -/
structure SwarmState where
  target_file : String
  test_file : String
  code_content : String
  pylint_report : String
  test_report : JudgeReport
  iteration : Nat
  is_success : Bool
  deriving Repr, DecidableEq

/-- Model of `auditor_agent`: the pylint/pytest subprocess results are
summarized into the report string passed in as `report`; the node's state
update is `{"pylint_report": ..., "iteration": iteration + 1}`. -/
def auditor_agent (st : SwarmState) (report : String) : SwarmState :=
  { st with pylint_report := report, iteration := st.iteration + 1 }

/-- Model of `fixer_agent`. The external transformation (the Mistral call
plus code-block extraction) is the `llm` argument: `.error` models any
exception raised by the call, `.ok s` the extracted text. An exception, an
empty text, or a text shorter than 10 characters leaves the code unchanged
(`return {"code_content": code}`); otherwise the code is replaced
wholesale. -/
def fixer_agent (st : SwarmState) (llm : Except String String) : SwarmState :=
  match llm with
  | .error _ => { st with code_content := st.code_content }
  | .ok fixed =>
    if fixed = "" ∨ fixed.length < 10 then { st with code_content := st.code_content }
    else { st with code_content := fixed }

/-- The `test_passed` value `judge_agent` computes: `False` when there is no
test file to run (`testResult = none`), otherwise
`test_result.all_tests_passed if test_result.success else False`. -/
def judge_test_passed : Option TestResult → Bool
  | none => false
  | some r => r.success && r.all_tests_passed

/-- Model of `judge_agent`: runs the tests (outcome passed in), records the
`test_passed` flag in the report, and sets
`is_success = test_passed or iteration >= 5`. -/
def judge_agent (st : SwarmState) (testResult : Option TestResult) : SwarmState :=
  let tp := judge_test_passed testResult
  { st with test_report := ⟨tp⟩,
            is_success := tp || decide (5 ≤ st.iteration) }

/-- The two outcomes of the conditional edge after `judge`. -/
inductive Route where
  | toEnd
  | toAuditor
  deriving Repr, DecidableEq

/-- Model of `router` (`src/graph.py`): end when `is_success` is set, end
when `iteration > 5`, otherwise loop back to the auditor. -/
def router (st : SwarmState) : Route :=
  if st.is_success then .toEnd
  else if 5 < st.iteration then .toEnd
  else .toAuditor

/-- The external inputs consumed by one Auditing-Fixing-Judging cycle. -/
structure CycleEnv where
  pylint_report : String
  llm_result : Except String String
  test_result : Option TestResult

/-- One full cycle of the graph: auditor, then fixer, then judge, as wired
by `workflow.add_edge("auditor", "fixer")` and
`workflow.add_edge("fixer", "judge")`. -/
def runCycle (st : SwarmState) (e : CycleEnv) : SwarmState :=
  judge_agent (fixer_agent (auditor_agent st e.pylint_report) e.llm_result) e.test_result

/-- Fuel-bounded execution of the compiled graph from the entry point: run
a cycle, consult the router, and either stop or loop. Returns the final
state and whether the router reached END within the given number of
cycles. `k` indexes the environment by cycle number. -/
def runLoop (env : Nat → CycleEnv) : Nat → Nat → SwarmState → SwarmState × Bool
  | 0, _, st => (st, false)
  | fuel + 1, k, st =>
    let st' := runCycle st (env k)
    match router st' with
    | .toEnd => (st', true)
    | .toAuditor => runLoop env fuel (k + 1) st'

/-- A concrete state used to instantiate the loop theorems: a fresh session
as `main.py` builds it, with `iteration = 0` and `is_success = False`. -/
def initialState : SwarmState :=
  { target_file := "t.py", test_file := "test_t.py", code_content := "x = 1",
    pylint_report := "", test_report := ⟨false⟩, iteration := 0, is_success := false }

/-- A concrete environment in which the external transformation always
raises and no test file is found. -/
def constEnv : Nat → CycleEnv :=
  fun _ => { pylint_report := "", llm_result := Except.error "connection refused",
             test_result := none }

/-! ## Helper lemmas -/

theorem fsLookup_fsErase_ne (fs : FS) (k k' : List String) (h : k' ≠ k) :
    fsLookup (fsErase fs k) k' = fsLookup fs k' := by
  induction fs with
  | nil => rfl
  | cons kv rest ih =>
    by_cases hk : kv.1 = k
    · rw [fsErase, if_pos hk, ih, fsLookup, if_neg (by rw [hk]; exact h)]
    · rw [fsErase, if_neg hk, fsLookup, fsLookup]
      by_cases hk' : k' = kv.1
      · rw [if_pos hk', if_pos hk']
      · rw [if_neg hk', if_neg hk', ih]

@[simp] theorem fsLookup_fsInsert_self (fs : FS) (k : List String) (v : String) :
    fsLookup (fsInsert fs k v) k = some v := by
  rw [fsInsert, fsLookup, if_pos rfl]

theorem fsLookup_fsInsert_ne (fs : FS) (k k' : List String) (v : String) (h : k' ≠ k) :
    fsLookup (fsInsert fs k v) k' = fsLookup fs k' := by
  rw [fsInsert, fsLookup, if_neg h, fsLookup_fsErase_ne fs k k' h]

theorem withLastAppend_ne (parts : List String) (extra : String)
    (h : extra.length ≠ 0) : withLastAppend parts extra ≠ parts := by
  rcases List.eq_nil_or_concat parts with hnil | ⟨l, a, hla⟩
  · subst hnil
    intro he
    simp [withLastAppend] at he
  · subst hla
    intro he
    rw [List.concat_eq_append] at he
    rw [withLastAppend, List.dropLast_concat, List.getLastD_concat] at he
    have h2 : a ++ extra = a := by
      have := List.append_cancel_left he
      simpa using this
    have h3 : (a ++ extra).length = a.length := by rw [h2]
    rw [String.length_append] at h3
    omega

theorem dotdot_not_mem_foldl (ps acc : List String) (h : ".." ∉ acc) :
    ".." ∉ ps.foldl (fun acc c => if c = ".." then acc.dropLast else acc ++ [c]) acc := by
  induction ps generalizing acc with
  | nil => exact h
  | cons c cs ih =>
    rw [List.foldl_cons]
    apply ih
    by_cases hc : c = ".."
    · rw [if_pos hc]
      intro hm
      exact h (List.dropLast_sublist acc |>.mem hm)
    · rw [if_neg hc]
      intro hm
      rcases List.mem_append.mp hm with h1 | h2
      · exact h h1
      · exact hc (List.mem_singleton.mp h2).symm

theorem dotdot_not_mem_resolveParts (ps : List String) : ".." ∉ resolveParts ps :=
  dotdot_not_mem_foldl ps [] (List.not_mem_nil _)

/-! ## Claim theorems -/

/-- C9: for every empty path input, `validate_path` fails with the
`InvalidArgument` error (Python `ValueError`), not a `SecurityViolation`,
and the empty input is never accepted — in particular it is not silently
treated as the sandbox root. -/
theorem validate_path_empty_invalid_argument (root : List String) :
    validate_path root "" = Except.error PathError.invalidArgument ∧
    ∀ p : PPath, validate_path root "" ≠ Except.ok p := by
  refine ⟨rfl, ?_⟩
  intro p hp
  rw [validate_path, if_pos rfl] at hp
  exact Except.noConfusion hp

/-- C1, counterexample to the claim as stated: the input `a/../b` contains
a `..` segment, yet `validate_path` does not fail with a
`SecurityViolation` — the `..` is resolved away and the path is accepted
because it still resolves inside the sandbox root. -/
theorem validate_path_dotdot_inside_accepted_cex :
    ".." ∈ (parsePath "a/../b").parts ∧
    validate_path ["r"] "a/../b" = Except.ok ⟨true, ["r", "b"]⟩ :=
  ⟨by decide, rfl⟩

/-- C1 (amended): for every non-empty input, `validate_path` resolves the
input under the sandbox root (`..` segments are resolved away, never
rejected outright) and fails with `SecurityViolation` exactly when the
resolved path is outside the root; when the path resolves inside, it
succeeds and returns an absolute, `..`-free path having the root as a
prefix. -/
theorem validate_path_containment (root : List String) (input : String)
    (h : input ≠ "") :
    (isWithin root (resolvedJoin root input) = true →
        validate_path root input = Except.ok ⟨true, resolvedJoin root input⟩ ∧
        ".." ∉ resolvedJoin root input) ∧
    (isWithin root (resolvedJoin root input) = false →
        validate_path root input = Except.error PathError.securityViolation) ∧
    (∀ q : PPath, validate_path root input = Except.ok q →
        q.absolute = true ∧ isWithin root q.parts = true) := by
  have hval : validate_path root input =
      (if isWithin root (resolvedJoin root input) then
          Except.ok (⟨true, resolvedJoin root input⟩ : PPath)
        else Except.error PathError.securityViolation) := by
    rw [validate_path, if_neg h, validate_pathP, resolvedJoin]
  refine ⟨?_, ?_, ?_⟩
  · intro hin
    rw [hval, if_pos hin]
    exact ⟨rfl, dotdot_not_mem_resolveParts _⟩
  · intro hout
    rw [hval, hout]
    rfl
  · intro q hq
    rw [hval] at hq
    by_cases hin : isWithin root (resolvedJoin root input) = true
    · rw [if_pos hin] at hq
      rw [← Except.ok.inj hq]
      exact ⟨rfl, hin⟩
    · rw [if_neg (by simpa using hin)] at hq
      exact Except.noConfusion hq

/-- C1, witness: a concrete relative path inside the sandbox is accepted
and the returned path extends the root. -/
theorem validate_path_containment_witness :
    validate_path ["r"] "sub/code.py" = Except.ok ⟨true, ["r", "sub", "code.py"]⟩ ∧
    ".." ∉ resolvedJoin ["r"] "sub/code.py" := by
  have h := (validate_path_containment ["r"] "sub/code.py" (by decide)).1 (by decide)
  have e : resolvedJoin ["r"] "sub/code.py" = ["r", "sub", "code.py"] := by decide
  exact ⟨e ▸ h.1, h.2⟩

/-- C4, counterexample to the claim as stated: `get_safe_path` does not
interpret an absolute argument as relative to the sandbox root. Under the
spec's words (`get_safe_path_specModel`) the absolute argument
`/etc/passwd` would be validated as `<root>/etc/passwd` and accepted; the
code instead joins with pathlib semantics, so the absolute argument keeps
its own root and is rejected as outside the sandbox. -/
theorem get_safe_path_absolute_arg_cex :
    get_safe_path ["r"] "/etc/passwd" = Except.error PathError.securityViolation ∧
    get_safe_path_specModel ["r"] "/etc/passwd" =
      Except.ok ⟨true, ["r", "etc", "passwd"]⟩ :=
  ⟨rfl, rfl⟩

/-- C4 (amended): `get_safe_path` joins its argument to the sandbox root
with pathlib semantics — a relative argument is interpreted root-relative
(and then agrees with the spec's root-relative reading), while an absolute
argument replaces the root and is validated as itself; in either case every
accepted result is an absolute path inside the sandbox, so an absolute
argument can never escape. -/
theorem get_safe_path_join_semantics (root : List String) (rel : String) :
    ((parsePath rel).absolute = false →
        get_safe_path root rel = get_safe_path_specModel root rel) ∧
    (∀ q : PPath, get_safe_path root rel = Except.ok q →
        q.absolute = true ∧ isWithin root q.parts = true) := by
  constructor
  · intro habs
    rw [get_safe_path, get_safe_path_specModel, habs]
    rfl
  · intro q hq
    rw [get_safe_path] at hq
    rw [validate_pathP] at hq
    by_cases hin : isWithin root (resolveParts
        (if (if (parsePath rel).absolute then parsePath rel
            else ⟨true, root ++ (parsePath rel).parts⟩ : PPath).absolute then
          (if (parsePath rel).absolute then parsePath rel
            else ⟨true, root ++ (parsePath rel).parts⟩ : PPath).parts
        else root ++ (if (parsePath rel).absolute then parsePath rel
            else ⟨true, root ++ (parsePath rel).parts⟩ : PPath).parts)) = true
    · rw [if_pos hin] at hq
      rw [← Except.ok.inj hq]
      exact ⟨rfl, hin⟩
    · rw [if_neg (by simpa using hin)] at hq
      exact Except.noConfusion hq

/-- C4, witness: on a concrete relative argument the code agrees with the
spec's root-relative reading, and a concrete accepted result lies inside
the sandbox. -/
theorem get_safe_path_join_semantics_witness :
    get_safe_path ["r"] "sub/x.py" = get_safe_path_specModel ["r"] "sub/x.py" ∧
    (⟨true, ["r", "sub", "x.py"]⟩ : PPath).absolute = true ∧
    isWithin ["r"] ["r", "sub", "x.py"] = true := by
  have h := get_safe_path_join_semantics ["r"] "sub/x.py"
  have h2 := h.2 ⟨true, ["r", "sub", "x.py"]⟩ rfl
  exact ⟨h.1 (by decide), h2.1, h2.2⟩

/-- C5: for every path that validates inside the sandbox and every content
string, `write_file` succeeds and a subsequent `read_file` of the same path
returns exactly the content that was written, for any backup setting,
timestamp, and backup-copy outcome. -/
theorem write_read_roundtrip (fs : FS) (root : List String)
    (input content ts : String) (cb copyOk : Bool) (p : PPath)
    (hv : validate_path root input = Except.ok p) :
    (write_file fs root input content cb ts copyOk).1.success = true ∧
    read_file (write_file fs root input content cb ts copyOk).2 root input =
      { success := true, filepath := some p.parts, content := some content } := by
  rw [write_file, hv]
  refine ⟨rfl, ?_⟩
  rw [read_file, hv]
  simp only [fsLookup_fsInsert_self]

/-- C5, witness: writing then reading a concrete file in a concrete sandbox
returns the written content. -/
theorem write_read_roundtrip_witness :
    (write_file [] ["r"] "a.py" "print(1)" true "20260101_120000" true).1.success = true ∧
    read_file (write_file [] ["r"] "a.py" "print(1)" true "20260101_120000" true).2
        ["r"] "a.py" =
      { success := true, filepath := some ["r", "a.py"], content := some "print(1)" } :=
  write_read_roundtrip [] ["r"] "a.py" "print(1)" "20260101_120000" true true
    ⟨true, ["r", "a.py"]⟩ rfl

/-- C8: for every existing file inside the sandbox, a successful
`create_backup` reports a backup path distinct from the original, the
backup file holds the original's content at backup time, and the original
file still holds that same content afterwards. -/
theorem create_backup_preserves_original (fs : FS) (root : List String)
    (input ts c : String) (p : PPath)
    (hv : validate_path root input = Except.ok p)
    (hex : fsLookup fs p.parts = some c) :
    (create_backup fs root input ts true).1.success = true ∧
    (create_backup fs root input ts true).1.backup_path =
      some (backupPathOf p.parts ts) ∧
    backupPathOf p.parts ts ≠ p.parts ∧
    fsLookup (create_backup fs root input ts true).2 (backupPathOf p.parts ts) = some c ∧
    fsLookup (create_backup fs root input ts true).2 p.parts = some c := by
  have hne : backupPathOf p.parts ts ≠ p.parts := by
    apply withLastAppend_ne
    rw [String.length_append]
    have h5 : (".bak." : String).length = 5 := rfl
    omega
  rw [create_backup, hv]
  dsimp only
  rw [create_backup_at.eq_def, hex]
  refine ⟨rfl, rfl, hne, ?_, ?_⟩
  · simp
  · simp only [eq_self_iff_true, if_true]
    rw [fsLookup_fsInsert_ne fs (backupPathOf p.parts ts) p.parts c (fun h => hne h.symm)]
    exact hex

/-- C8, witness: backing up a concrete existing file produces a distinct
backup with the same content and leaves the original intact. -/
theorem create_backup_preserves_original_witness :
    (create_backup [(["r", "a.py"], "old")] ["r"] "a.py" "ts1" true).1.success = true ∧
    (create_backup [(["r", "a.py"], "old")] ["r"] "a.py" "ts1" true).1.backup_path =
      some (backupPathOf ["r", "a.py"] "ts1") ∧
    backupPathOf ["r", "a.py"] "ts1" ≠ ["r", "a.py"] ∧
    fsLookup (create_backup [(["r", "a.py"], "old")] ["r"] "a.py" "ts1" true).2
      (backupPathOf ["r", "a.py"] "ts1") = some "old" ∧
    fsLookup (create_backup [(["r", "a.py"], "old")] ["r"] "a.py" "ts1" true).2
      ["r", "a.py"] = some "old" :=
  create_backup_preserves_original [(["r", "a.py"], "old")] ["r"] "a.py" "ts1" "old"
    ⟨true, ["r", "a.py"]⟩ rfl rfl

/-- C10: when `write_file` is asked to back up an existing file and the
backup step fails (the copy raises), the write itself still succeeds: the
new content is written, the result reports `success = true`, and the
metadata reports `backup_created = false` with no backup path. -/
theorem write_file_backup_failure_still_writes (fs : FS) (root : List String)
    (input content ts old : String) (p : PPath)
    (hv : validate_path root input = Except.ok p)
    (hex : fsLookup fs p.parts = some old) :
    (write_file fs root input content true ts false).1.success = true ∧
    (write_file fs root input content true ts false).1.backup_created = false ∧
    (write_file fs root input content true ts false).1.backup_path = none ∧
    fsLookup (write_file fs root input content true ts false).2 p.parts = some content := by
  rw [write_file, hv]
  dsimp only
  rw [hex]
  rw [create_backup_at.eq_def, hex]
  simp

/-- C10, witness: a concrete write over an existing file with a failing
backup copy still succeeds and records no backup. -/
theorem write_file_backup_failure_still_writes_witness :
    (write_file [(["r", "a.py"], "old")] ["r"] "a.py" "new code" true "ts1" false).1.success
      = true ∧
    (write_file [(["r", "a.py"], "old")] ["r"] "a.py" "new code" true "ts1"
      false).1.backup_created = false ∧
    (write_file [(["r", "a.py"], "old")] ["r"] "a.py" "new code" true "ts1"
      false).1.backup_path = none ∧
    fsLookup (write_file [(["r", "a.py"], "old")] ["r"] "a.py" "new code" true "ts1"
      false).2 ["r", "a.py"] = some "new code" :=
  write_file_backup_failure_still_writes [(["r", "a.py"], "old")] ["r"] "a.py"
    "new code" "ts1" "old" ⟨true, ["r", "a.py"]⟩ rfl rfl

theorem parse_output_stats_total (ms : List (Nat × String))
    (altMatches : Option (List (Nat × String))) :
    (parse_output_stats ms altMatches).total =
      (parse_output_stats ms altMatches).passed +
      (parse_output_stats ms altMatches).failed +
      (parse_output_stats ms altMatches).skipped +
      (parse_output_stats ms altMatches).errors := by
  rw [parse_output_stats.eq_def]
  dsimp only
  split
  · cases altMatches with
    | none => rfl
    | some ams => rfl
  · rfl

/-- C6: every `TestResult` built from parsed test-runner output satisfies
`total = passed + failed + skipped + errors`, and its all-tests-passed flag
equals `failed == 0 && errors == 0`, for every possible list of summary
matches and fallback matches. -/
theorem test_stats_total_and_all_passed (ms : List (Nat × String))
    (altMatches : Option (List (Nat × String))) :
    (run_tests_result ms altMatches).stats.total =
      (run_tests_result ms altMatches).stats.passed +
      (run_tests_result ms altMatches).stats.failed +
      (run_tests_result ms altMatches).stats.skipped +
      (run_tests_result ms altMatches).stats.errors ∧
    (run_tests_result ms altMatches).all_tests_passed =
      ((run_tests_result ms altMatches).stats.failed == 0 &&
        (run_tests_result ms altMatches).stats.errors == 0) :=
  ⟨parse_output_stats_total ms altMatches, rfl⟩

/-- C7: in the Fixing step, if the external transformation call raises any
exception, or its returned text is empty or pathologically short (fewer
than 10 characters), the whole state — in particular the code text — is
left exactly unchanged, and the agent returns normally so the cycle
continues. -/
theorem fixer_soft_failure (st : SwarmState) :
    (∀ err : String, fixer_agent st (Except.error err) = st) ∧
    (∀ s : String, s = "" ∨ s.length < 10 → fixer_agent st (Except.ok s) = st) := by
  constructor
  · intro err
    rfl
  · intro s hs
    rw [fixer_agent]
    rw [if_pos hs]

/-- C7, witness: a concrete failing call and a concrete 5-character reply
both leave a concrete state unchanged. -/
theorem fixer_soft_failure_witness :
    fixer_agent initialState (Except.error "boom") = initialState ∧
    fixer_agent initialState (Except.ok "x = 2") = initialState := by
  have h := fixer_soft_failure initialState
  exact ⟨h.1 "boom", h.2 "x = 2" (Or.inr (by decide))⟩

/-- C3: the Judging step sets `is_success` to true exactly when the
computed test-passed flag is true or the iteration counter has reached the
ceiling of 5; the report records the test-passed flag itself, and there is
a state (iteration 5, failing tests) where `is_success` is true while the
recorded test-passed flag is false, so the two flags are distinguishable. -/
theorem judge_success_iff_tests_or_ceiling (st : SwarmState) (tr : Option TestResult) :
    ((judge_agent st tr).is_success
        = (judge_test_passed tr || decide (5 ≤ st.iteration))) ∧
    ((judge_agent st tr).test_report.test_passed = judge_test_passed tr) ∧
    (∃ st0 : SwarmState, ∃ tr0 : Option TestResult,
        judge_test_passed tr0 = false ∧
        (judge_agent st0 tr0).is_success = true ∧
        (judge_agent st0 tr0).test_report.test_passed = false) := by
  refine ⟨rfl, rfl, ⟨⟨"t", "tt", "c", "", ⟨false⟩, 5, false⟩, none, rfl, ?_, rfl⟩⟩
  rfl

theorem fixer_agent_iteration (st : SwarmState) (l : Except String String) :
    (fixer_agent st l).iteration = st.iteration := by
  rw [fixer_agent.eq_def]
  cases l with
  | error e => rfl
  | ok s =>
    dsimp only
    split
    · rfl
    · rfl

theorem judge_agent_is_success (st : SwarmState) (tr : Option TestResult) :
    (judge_agent st tr).is_success
      = (judge_test_passed tr || decide (5 ≤ st.iteration)) := rfl

theorem runCycle_iteration (st : SwarmState) (e : CycleEnv) :
    (runCycle st e).iteration = st.iteration + 1 := by
  rw [runCycle]
  show (fixer_agent (auditor_agent st e.pylint_report) e.llm_result).iteration
      = st.iteration + 1
  rw [fixer_agent_iteration]
  rfl

theorem runCycle_is_success (st : SwarmState) (e : CycleEnv) :
    (runCycle st e).is_success
      = (judge_test_passed e.test_result || decide (5 ≤ st.iteration + 1)) := by
  rw [runCycle, judge_agent_is_success, fixer_agent_iteration]
  rfl

theorem runLoop_reaches_end (env : Nat → CycleEnv) :
    ∀ (fuel k : Nat) (st : SwarmState), 1 ≤ fuel → 5 ≤ st.iteration + fuel →
    (runLoop env fuel k st).2 = true := by
  intro fuel
  induction fuel with
  | zero =>
    intro k st h1 _
    exact absurd h1 (by omega)
  | succ n ih =>
    intro k st _ h5
    rw [runLoop]
    cases hr : router (runCycle st (env k)) with
    | toEnd => rfl
    | toAuditor =>
      show (runLoop env n (k + 1) (runCycle st (env k))).2 = true
      have hsucc : (runCycle st (env k)).is_success = false := by
        by_contra hx
        rw [Bool.not_eq_false] at hx
        rw [router, if_pos hx] at hr
        exact Route.noConfusion hr
      have hlt : ¬ (5 ≤ st.iteration + 1) := by
        intro hge
        rw [runCycle_is_success, decide_eq_true hge, Bool.or_true] at hsucc
        exact Bool.noConfusion hsucc
      exact ih (k + 1) (runCycle st (env k)) (by omega)
        (by rw [runCycle_iteration]; omega)

/-- C2: for every sequence of transformation and test outcomes, the
Auditing stage increments the iteration counter by exactly one, the router
routes to END exactly when `is_success` is set or the iteration counter
exceeds 5, the Judging stage forces success once the iteration counter
reaches 5, and a session started at iteration 0 always reaches END within
6 (ceiling plus one) cycles. -/
theorem repair_loop_terminates (env : Nat → CycleEnv) (st0 : SwarmState)
    (h0 : st0.iteration = 0) :
    (∀ (st : SwarmState) (report : String),
        (auditor_agent st report).iteration = st.iteration + 1) ∧
    (∀ st : SwarmState, router st = Route.toEnd ↔
        (st.is_success = true ∨ 5 < st.iteration)) ∧
    (∀ (st : SwarmState) (tr : Option TestResult),
        5 ≤ st.iteration → (judge_agent st tr).is_success = true) ∧
    (runLoop env 6 0 st0).2 = true := by
  refine ⟨fun st r => rfl, ?_, ?_, ?_⟩
  · intro st
    by_cases hs : st.is_success = true
    · simp [router, hs]
    · by_cases hi : 5 < st.iteration
      · simp [router, hs, hi]
      · simp [router, hs, hi]
  · intro st tr hge
    rw [judge_agent_is_success, decide_eq_true hge, Bool.or_true]
  · exact runLoop_reaches_end env 6 0 st0 (by omega) (by omega)

/-- C2, witness: a concrete session in which the transformation always
raises and no tests are found still reaches END within 6 cycles. -/
theorem repair_loop_terminates_witness :
    (runLoop constEnv 6 0 initialState).2 = true :=
  (repair_loop_terminates constEnv initialState rfl).2.2.2

end RefactoringSwarm
